import Mathlib

/-!
# Verification of the townstats status-document generator

Shallow embedding of the core logic of `main.go`: the news-file parser
(`getNews`), user discovery and the system-account exclusion set
(`getUsers`, `systemUsers`), default-page detection
(`detectDefaultPageFor`), the active-session counter (`activeUserCount`),
the live-user counter (`liveUserCount`), and the document assembler (`tdp`).

Lines of text files and command output are modelled as `List Char`
(the scanner strips the trailing newline, so a scanned line normally
contains no newline character).  Byte contents of files are modelled as
`List Nat`.  Fallible operations return `Option` (where `none` models a
Go runtime panic) or `Except String` (where `.error` models a returned
Go `error`).
-/

namespace Townstats

/-- A line of text, as produced by `bufio.Scanner` (no trailing newline). -/
abbrev Line := List Char

/-- Go `unicode.IsSpace` restricted to the characters it recognizes in the
Latin-1 range: `'\t'`, `'\n'`, `'\v'`, `'\f'`, `'\r'`, `' '`, U+0085, U+00A0. -/
def isGoSpace (c : Char) : Bool :=
  c == ' ' || c == '\t' || c == '\n' || c == (Char.ofNat 11) ||
  c == (Char.ofNat 12) || c == '\r' || c == (Char.ofNat 133) || c == (Char.ofNat 160)

/-- Go `strings.TrimSpace`: drop leading and trailing whitespace. -/
def trimSpace (l : Line) : Line :=
  (((l.dropWhile isGoSpace).reverse).dropWhile isGoSpace).reverse

/-- Go `strings.SplitN(s, ":", 2)`: split on the first colon.  Returns
`[s]` when `s` contains no colon, and `[before, after]` otherwise. -/
def splitNColon2 (l : Line) : List Line :=
  let before := l.takeWhile (fun c => !(c == ':'))
  let rest := l.dropWhile (fun c => !(c == ':'))
  match rest with
  | [] => [l]
  | _ :: after => [before, after]

/-- Go `regexp` match of `blankLineRe = ^ *\n$` against a whole line:
zero or more spaces followed by exactly a newline character.  (Scanner
lines never contain `'\n'`, so on real input this never matches.) -/
def blankLineMatch (l : Line) : Bool :=
  l.dropWhile (fun c => c == ' ') == ['\n']

/-- `newsEntry` from main.go. -/
structure NewsEntry where
  title : Line
  pubdate : Line
  content : Line
deriving Repr, DecidableEq

/-- The zero value `newsEntry{}`. -/
def blankEntry : NewsEntry := ⟨[], [], []⟩

/-- The mutable state of the `getNews` scan loop: the emitted entries,
the entry under construction, and the two state flags. -/
structure NewsState where
  entries : List NewsEntry
  current : NewsEntry
  inMeta : Bool
  inContent : Bool
deriving Repr, DecidableEq

/-- Initial state of `getNews`: `inMeta = true`, `inContent = false`,
`current = newsEntry{}`, no entries emitted. -/
def initNewsState : NewsState := ⟨[], blankEntry, true, false⟩

/-- The `reading-metadata` branch of `getNews`.  `kv[1]` is accessed
whenever `kv[0]` is `"pubdate"` or `"title"`; when the line contains no
colon `kv` has length 1 and this access panics (modelled as `none`).
After the key assignment, if both fields are now nonempty the state
flips to content-reading. -/
def metaStep (st : NewsState) (l : Line) : Option NewsState :=
  let kv := splitNColon2 l
  let updated : Option NewsEntry :=
    if kv.headD [] == "pubdate".toList then
      match kv with
      | [_, v] => some { st.current with pubdate := trimSpace v }
      | _ => none
    else if kv.headD [] == "title".toList then
      match kv with
      | [_, v] => some { st.current with title := trimSpace v }
      | _ => none
    else
      some st.current
  updated.map (fun cur =>
    if !(cur.pubdate == []) && !(cur.title == []) then
      { st with current := cur, inMeta := false, inContent := true }
    else
      { st with current := cur })

/-- One iteration of the `getNews` scan loop on one line, following the
branch order of the source: skip comment/empty/blank-regex lines, then
the `--` delimiter check, then the metadata branch, then the content
branch.  `none` models a runtime panic. -/
def newsStep (st : NewsState) (l : Line) : Option NewsState :=
  if "#".toList.isPrefixOf l || l == [] || blankLineMatch l then
    some st
  else if "--".toList.isPrefixOf l then
    some { entries := st.entries ++ [st.current], current := blankEntry,
           inMeta := true, inContent := false }
  else if st.inMeta then
    metaStep st l
  else if st.inContent then
    some { st with current := { st.current with
             content := st.current.content ++ '\n' :: trimSpace l } }
  else
    some st

/-- The scan loop of `getNews` over the lines of an already-opened news
file.  Returns the emitted entries; the entry still under construction
at end of input is discarded.  `none` models a runtime panic. -/
def parseNews (lines : List Line) : Option (List NewsEntry) :=
  (List.foldlM newsStep initNewsState lines).map NewsState.entries

/-- `getNews` up to the scan loop: opening the news file.  The argument
is the result of `os.Open` plus reading the lines; an open failure is
wrapped in the `unable to read news file` error.  `none` in the result
models a runtime panic of the scan loop. -/
def getNews (file : Except String (List Line)) :
    Option (Except String (List NewsEntry)) :=
  match file with
  | .error e => some (.error ("unable to read news file: " ++ e))
  | .ok lines => (parseNews lines).map Except.ok

/-- `user` from main.go. -/
structure User where
  Username : String
  PageTitle : String
  Mtime : Int
  DefaultPage : Bool
deriving Repr, DecidableEq

/-- Go `strings.Split(s, sep)` for a one-character separator:
split on every occurrence; `goSplit sep [] = [[]]`. -/
def goSplit (sep : Char) : Line → List Line
  | [] => [[]]
  | c :: rest =>
    if c == sep then [] :: goSplit sep rest
    else
      match goSplit sep rest with
      | [] => [[c]]
      | t :: ts => (c :: t) :: ts

/-- `systemUsers` from main.go: the built-in exclusion set, augmented by
the comma-separated `SYSTEM_USERS` environment variable when nonempty.
Returned as the membership predicate of the Go `map[string]bool`. -/
def systemUsers (envSystemUsers : String) (name : String) : Bool :=
  name == "ubuntu" || name == "ttadmin" || name == "root" ||
  (!(envSystemUsers == "") && (goSplit ',' envSystemUsers.data).contains name.data)

/-- `indexPathFor` from main.go: try `index.html` then `index.htm` under
the user's `public_html`; the first path that `os.Stat` accepts is
returned, otherwise an error.  `exists` is the stat collaborator. -/
def indexPathFor (home : String) (stat : String → Bool) (username : String) :
    Except String String :=
  let fullHtml := home ++ "/" ++ username ++ "/public_html/index.html"
  let fullHtm := home ++ "/" ++ username ++ "/public_html/index.htm"
  if stat fullHtml then .ok fullHtml
  else if stat fullHtm then .ok fullHtm
  else .error ("Failed to locate index file for " ++ username)

/-- `detectDefaultPageFor` from main.go: locate the user's index page;
on any locate/open/read failure return `false`, otherwise compare the
read bytes (`readF`) against the default template bytes with
`bytes.Equal`. -/
def detectDefaultPageFor (home : String) (stat : String → Bool)
    (readF : String → Except String (List Nat))
    (username : String) (defaultHTML : List Nat) : Bool :=
  match indexPathFor home stat username with
  | .error _ => false
  | .ok indexPath =>
    match readF indexPath with
    | .error _ => false
    | .ok indexHTML => indexHTML == defaultHTML

/-- `getUsers` from main.go, after the default template and the `ls`
output have been obtained: every listed name not in the exclusion set
becomes a `user` record, in listing order.  `pt`, `mt`, `dp` are the
per-user collaborators (`pageTitleFor`, `mtimeFor`,
`detectDefaultPageFor` applied to the template). -/
def getUsers (lsLines : List String) (envSystemUsers : String)
    (pt : String → String) (mt : String → Int) (dp : String → Bool) :
    List User :=
  lsLines.foldl (fun users username =>
    if systemUsers envSystemUsers username then users
    else users ++ [⟨username, pt username, mt username, dp username⟩]) []

/-- `liveUserCount` from main.go: loop over the users, counting those
whose `DefaultPage` flag is false. -/
def liveUserCount (users : List User) : Nat :=
  users.foldl (fun count u => if !u.DefaultPage then count + 1 else count) 0

/-- `activeUserCount` from main.go, over the lines of the `who` output:
the username token of a line is `strings.Split(line, " ")[0]`; tokens
are collected into a set (`map[string]bool`) and the distinct count is
returned. -/
def activeUserCount (whoLines : List Line) : Nat :=
  ((whoLines.map (fun l => (goSplit ' ' l).headD [])).dedup).length

/-- Modelled on the spec's words for §4.4 `activeUserCount` (a second
definition, for refinement comparison only): "parse each output line by
splitting on the first whitespace run to extract a username token,
deduplicate by username, return the distinct count". -/
def activeUserCountSpecModel (whoLines : List Line) : Nat :=
  ((whoLines.map (fun l => l.takeWhile (fun c => !c.isWhitespace))).dedup).length

/-- `tildeData` from main.go (static identity fields included). -/
structure TdpData where
  Name : String
  URL : String
  SignupURL : String
  WantUsers : Bool
  AdminEmail : String
  Description : String
  UserCount : Nat
  Users : List User
  LiveUserCount : Nat
  ActiveUserCount : Nat
  GeneratedAt : String
  GeneratedAtSec : Int
  Uptime : String
  News : List NewsEntry
deriving Repr, DecidableEq

/-- The `description` string constant of main.go. -/
def descriptionText : String :=
  "an intentional digital community for creating and sharing\nworks of art, peer education, and technological anachronism. we are\nnon-commercial, donation supported, and committed to rejecting false\ntechnological progress in favor of empathy and sustainable computing."

/-- `tdp` from main.go, as a function of the results of its four
collaborator calls (`getUsers`, `activeUserCount`, `getNews`,
`getUptime`) and the two generation timestamps.  Each collaborator
failure is wrapped in the source's message and returned, in source
order; otherwise the document is assembled. -/
def tdp (usersR : Except String (List User)) (activeR : Except String Nat)
    (newsR : Except String (List NewsEntry)) (uptimeR : Except String String)
    (generatedAt : String) (generatedAtSec : Int) : Except String TdpData :=
  match usersR with
  | .error e => .error ("could not get user list: " ++ e)
  | .ok users =>
    match activeR with
    | .error e => .error ("could not count non-default users: " ++ e)
    | .ok activeUsers =>
      match newsR with
      | .error e => .error ("could not get news: " ++ e)
      | .ok news =>
        match uptimeR with
        | .error e => .error ("could not determine uptime: " ++ e)
        | .ok uptime =>
          .ok { Name := "tilde.town"
                URL := "https://tilde.town"
                SignupURL := "https://cgi.tilde.town/users/signup"
                WantUsers := true
                AdminEmail := "root@tilde.town"
                Description := descriptionText
                UserCount := users.length
                Users := users
                LiveUserCount := liveUserCount users
                ActiveUserCount := activeUsers
                GeneratedAt := generatedAt
                GeneratedAtSec := generatedAtSec
                Uptime := uptime
                News := news }

/-- The byte contents `"<html></html>"` of the template page of the
default-page scenario. -/
def htmlBytes : List Nat := "<html></html>".toList.map Char.toNat

/-- The same bytes with the single final byte changed (`'>'` to `'!'`). -/
def htmlBytesAltered : List Nat := "<html></html!".toList.map Char.toNat

/-! ## Helper lemmas about the news parser -/

theorem toList_dash : "--".toList = ['-', '-'] := rfl

theorem dash_shape (l : Line) (h : "--".toList.isPrefixOf l = true) :
    ∃ t, l = '-' :: '-' :: t := by
  match l with
  | [] => simp [toList_dash, List.isPrefixOf] at h
  | [c] => simp [toList_dash, List.isPrefixOf] at h
  | a :: b :: t =>
    simp [toList_dash, List.isPrefixOf] at h
    exact ⟨t, by rw [← h.1, ← h.2]⟩

theorem newsStep_dash (st : NewsState) (l : Line) (h : "--".toList.isPrefixOf l = true) :
    newsStep st l =
      some ⟨st.entries ++ [st.current], blankEntry, true, false⟩ := by
  obtain ⟨t, rfl⟩ := dash_shape l h
  simp [newsStep, blankLineMatch, List.isPrefixOf, List.dropWhile]

theorem metaStep_entries (st : NewsState) (l : Line) (st₁ : NewsState)
    (h : metaStep st l = some st₁) : st₁.entries = st.entries := by
  unfold metaStep at h
  rw [Option.map_eq_some'] at h
  obtain ⟨cur, _, hf⟩ := h
  split at hf <;> simp [← hf]

theorem newsStep_entries (st : NewsState) (l : Line) (st₁ : NewsState)
    (h : newsStep st l = some st₁) :
    st₁.entries.length =
      st.entries.length + (if "--".toList.isPrefixOf l then 1 else 0) := by
  by_cases hd : "--".toList.isPrefixOf l = true
  · rw [newsStep_dash st l hd] at h
    rw [Option.some_inj] at h
    rw [if_pos hd, ← h]
    simp
  · rw [if_neg hd, Nat.add_zero]
    unfold newsStep at h
    split at h
    · rw [Option.some_inj] at h; rw [← h]
    · split at h
      · exact congrArg List.length (metaStep_entries st l st₁ h)
      · split at h
        · rw [Option.some_inj] at h; rw [← h]
        · rw [Option.some_inj] at h; rw [← h]

theorem foldl_news_entries (lines : List Line) : ∀ st st' : NewsState,
    List.foldlM newsStep st lines = some st' →
    st'.entries.length =
      st.entries.length + lines.countP (fun l => "--".toList.isPrefixOf l) := by
  induction lines with
  | nil =>
    intro st st' h
    simp [List.foldlM] at h
    simp [← h]
  | cons l rest ih =>
    intro st st' h
    rw [List.foldlM_cons] at h
    cases hstep : newsStep st l with
    | none => rw [hstep] at h; simp at h
    | some st₁ =>
      rw [hstep] at h
      simp only [Option.bind_eq_bind, Option.some_bind] at h
      have h1 := ih st₁ st' h
      have h2 := newsStep_entries st l st₁ hstep
      rw [List.countP_cons, h1, h2]
      by_cases hp : ("--".toList.isPrefixOf l) = true <;> simp [hp] <;> omega

/-! ## Helper lemmas about counting and discovery -/

theorem liveUserCount_foldl (us : List User) : ∀ n : Nat,
    List.foldl (fun count u => if !u.DefaultPage then count + 1 else count) n us =
      n + (us.filter (fun u => !u.DefaultPage)).length := by
  induction us with
  | nil => intro n; simp
  | cons u rest ih =>
    intro n
    rw [List.foldl_cons, List.filter_cons]
    by_cases hu : (!u.DefaultPage) = true
    · rw [if_pos hu, ih, if_pos hu, List.length_cons]
      omega
    · rw [if_neg hu, ih, if_neg hu]

theorem liveUserCount_eq_filter (users : List User) :
    liveUserCount users = (users.filter (fun u => !u.DefaultPage)).length := by
  have h := liveUserCount_foldl users 0
  rw [Nat.zero_add] at h
  exact h

theorem getUsers_foldl_excludes (env : String) (name : String)
    (h : systemUsers env name = true) (pt : String → String)
    (mt : String → Int) (dp : String → Bool) : ∀ (ls : List String) (acc : List User),
    name ∉ acc.map User.Username →
    name ∉ (ls.foldl (fun users username =>
        if systemUsers env username then users
        else users ++ [⟨username, pt username, mt username, dp username⟩]) acc).map
      User.Username := by
  intro ls
  induction ls with
  | nil => intro acc hacc; simpa using hacc
  | cons u rest ih =>
    intro acc hacc
    simp only [List.foldl]
    by_cases hu : systemUsers env u = true
    · rw [if_pos hu]
      exact ih acc hacc
    · rw [if_neg hu]
      apply ih
      intro hmem
      rw [List.map_append, List.mem_append] at hmem
      rcases hmem with hmem | hmem
      · exact hacc hmem
      · simp at hmem
        exact hu (hmem ▸ h)

theorem goSplit_ne_nil (sep : Char) (l : Line) : goSplit sep l ≠ [] := by
  cases l with
  | nil => simp [goSplit]
  | cons c rest =>
    unfold goSplit
    by_cases hc : (c == sep) = true
    · simp [hc]
    · rw [if_neg hc]
      cases goSplit sep rest <;> simp

theorem headD_goSplit (sep : Char) (l : Line) :
    (goSplit sep l).headD [] = l.takeWhile (fun c => !(c == sep)) := by
  induction l with
  | nil => rfl
  | cons c rest ih =>
    unfold goSplit
    by_cases hc : (c == sep) = true
    · simp [hc, List.takeWhile]
    · rw [if_neg hc]
      cases hg : goSplit sep rest with
      | nil => exact absurd hg (goSplit_ne_nil sep rest)
      | cons t ts =>
        rw [hg] at ih
        simp [List.takeWhile, hc, ← ih]

/-! ## Claim theorems -/

/-- C1: the claim says the news parser is total over arbitrary input
lines, with malformed colon-free metadata lines (such as a line
consisting only of the word `title` or `pubdate`) ignored without
failing.  The code contradicts this: in reading-metadata state a line
that is exactly `title` (or `pubdate`) makes `kv[0]` match the key
while `kv` has length 1, so `kv[1]` panics with an index-out-of-range
runtime error (modelled as `none`).  A colon-free line whose text is
any other key really is ignored. -/
theorem bare_title_line_panics :
    parseNews ["title".toList] = none ∧
    parseNews ["pubdate".toList] = none ∧
    parseNews ["mystery".toList] = some [] := by decide

/-- C2: the claim says a whitespace-only line is skipped in either
parser state, changing nothing.  The code's blank-line regex `^ *\n$`
requires a trailing newline that the scanner has already stripped, so a
whitespace-only line is not skipped: in reading-content state it is
trimmed to the empty string and appended to the entry's content as a
bare `'\n'`.  Here the claim would require content `"" `, but the
parsed content is `"\n"`. -/
theorem whitespace_line_not_skipped :
    blankLineMatch "   ".toList = false ∧
    parseNews (["title: T", "pubdate: D", "   ", "--"].map String.toList) =
      some [⟨"T".toList, "D".toList, "\n".toList⟩] := by decide

/-- C3: whenever the news parser runs to completion, exactly the
delimiter-terminated records are emitted, in file order: a `--` line
closes the current record by appending the accumulated entry (complete
or not) and resetting to reading-metadata with a fresh blank entry, and
the number of emitted entries equals the number of delimiter lines — so
an entry still open at end of input is never appended. -/
theorem delimiter_records_exactly_emitted :
    (∀ (st : NewsState) (l : Line), "--".toList.isPrefixOf l →
        newsStep st l =
          some ⟨st.entries ++ [st.current], blankEntry, true, false⟩) ∧
    (∀ (lines : List Line) (es : List NewsEntry), parseNews lines = some es →
        es.length = lines.countP (fun l => "--".toList.isPrefixOf l)) := by
  constructor
  · exact fun st l h => newsStep_dash st l h
  · intro lines es h
    unfold parseNews at h
    rw [Option.map_eq_some'] at h
    obtain ⟨st', hf, he⟩ := h
    have hc := foldl_news_entries lines initNewsState st' hf
    rw [← he, hc]
    simp [initNewsState]

/-- Witness for C3 at a concrete state and input: a lone delimiter line
closes the (blank) open record, and parsing the one-line file `--`
emits exactly one entry, matching the delimiter count. -/
theorem delimiter_records_exactly_emitted_witness :
    newsStep initNewsState "--".toList =
      some ⟨[blankEntry], blankEntry, true, false⟩ ∧
    ([blankEntry] : List NewsEntry).length =
      [("--".toList)].countP (fun l => "--".toList.isPrefixOf l) :=
  ⟨delimiter_records_exactly_emitted.1 initNewsState "--".toList (by decide),
   delimiter_records_exactly_emitted.2 ["--".toList] [blankEntry] (by decide)⟩

/-- C4: on the input lines `title: Hello`, `pubdate: Jan 1`,
`body line one`, `body line two`, `--`, the news parser yields exactly
one entry with title `Hello`, pubdate `Jan 1`, and content
`"\nbody line one\nbody line two"` (each content line trimmed and
prefixed by a newline, in file order). -/
theorem news_delimiter_scenario :
    parseNews
        (["title: Hello", "pubdate: Jan 1", "body line one", "body line two",
          "--"].map String.toList) =
      some [⟨"Hello".toList, "Jan 1".toList,
            "\nbody line one\nbody line two".toList⟩] := by decide

/-- C10: every line that begins with the two characters `--` — not only
a line consisting solely of dashes — closes the current record in
either parser state, appending the accumulated entry and resetting to
reading-metadata with a fresh blank entry. -/
theorem dash_opening_line_closes_record (st : NewsState) (l : Line)
    (h : "--".toList.isPrefixOf l) :
    newsStep st l = some ⟨st.entries ++ [st.current], blankEntry, true, false⟩ :=
  newsStep_dash st l h

/-- Witness for C10: `---- cut here` ends an entry that was in
reading-content state and starts a fresh blank one. -/
theorem dash_opening_line_closes_record_witness :
    newsStep ⟨[], ⟨"T".toList, "D".toList, "c".toList⟩, false, true⟩
        "---- cut here".toList =
      some ⟨[⟨"T".toList, "D".toList, "c".toList⟩], blankEntry, true, false⟩ :=
  dash_opening_line_closes_record _ _ (by decide)

/-- C5: for every discovered user list, the assembled document has
`UserCount` equal to the length of the users sequence and
`LiveUserCount` equal to the number of users whose default-page flag is
false; consequently `LiveUserCount ≤ UserCount`. -/
theorem user_counts_invariant (users : List User) (active : Nat)
    (news : List NewsEntry) (uptime gAt : String) (gSec : Int) :
    ∃ d, tdp (.ok users) (.ok active) (.ok news) (.ok uptime) gAt gSec = .ok d ∧
      d.UserCount = users.length ∧
      d.LiveUserCount = (users.filter (fun u => !u.DefaultPage)).length ∧
      d.LiveUserCount ≤ d.UserCount := by
  refine ⟨_, rfl, rfl, liveUserCount_eq_filter users, ?_⟩
  show liveUserCount users ≤ users.length
  rw [liveUserCount_eq_filter]
  exact List.length_filter_le _ _

/-- C6: a candidate name in the exclusion set — the built-in system
accounts merged with the comma-separated environment list — never
appears in the users sequence produced by discovery, whatever the
per-user collaborators (i.e. whatever exists on the filesystem for that
name). -/
theorem excluded_names_never_listed (env name : String) (ls : List String)
    (pt : String → String) (mt : String → Int) (dp : String → Bool)
    (h : systemUsers env name = true) :
    name ∉ (getUsers ls env pt mt dp).map User.Username :=
  getUsers_foldl_excludes env name h pt mt dp ls [] (by simp)

/-- Witness for C6: `alice` comes from the environment list and is
excluded even though it is listed in the home directory and has page
data. -/
theorem excluded_names_never_listed_witness :
    systemUsers "alice,bob" "alice" = true ∧
    "alice" ∉ (getUsers ["alice", "root", "carol"] "alice,bob"
        (fun _ => "") (fun _ => 0) (fun _ => false)).map User.Username :=
  ⟨by decide,
   excluded_names_never_listed "alice,bob" "alice" ["alice", "root", "carol"]
     (fun _ => "") (fun _ => 0) (fun _ => false) (by decide)⟩

/-- C7: default-page detection returns true exactly when the located
entry page's bytes equal the template bytes: identical
`"<html></html>"` bytes give true, a single differing byte gives false,
and a failure to locate (`stat` refuses every path) or to read the page
gives false rather than an error. -/
theorem default_page_detection :
    (∀ (home : String) (stat : String → Bool)
        (readF : String → Except String (List Nat)) (username : String)
        (d : List Nat),
      detectDefaultPageFor home stat readF username d = true ↔
        ∃ p, indexPathFor home stat username = .ok p ∧ readF p = .ok d) ∧
    detectDefaultPageFor "/home" (fun _ => true)
      (fun _ => .ok htmlBytes) "alice" htmlBytes = true ∧
    detectDefaultPageFor "/home" (fun _ => true)
      (fun _ => .ok htmlBytesAltered) "alice" htmlBytes = false ∧
    detectDefaultPageFor "/home" (fun _ => false)
      (fun _ => .ok htmlBytes) "alice" htmlBytes = false ∧
    detectDefaultPageFor "/home" (fun _ => true)
      (fun _ => .error "read failure") "alice" htmlBytes = false := by
  refine ⟨?_, by decide, by decide, by decide, by decide⟩
  intro home stat readF username d
  unfold detectDefaultPageFor
  cases hip : indexPathFor home stat username with
  | error e => simp
  | ok p =>
    cases hr : readF p with
    | error e => simp [hr]
    | ok bs => simp [hr]

/-- C8 counterexample: the active-user count is not computed by
splitting on the first whitespace run.  On the two `who` lines
`bob\tpts/0` and `bob pts/1` a whitespace-run split extracts the
username `bob` twice (1 distinct user), but the code splits on the
space character only and counts 2. -/
theorem active_count_tab_counterexample :
    activeUserCount (["bob\tpts/0", "bob pts/1"].map String.toList) = 2 ∧
    activeUserCountSpecModel (["bob\tpts/0", "bob pts/1"].map String.toList) = 1 := by
  decide

/-- C8 amended: the active-user count splits each `who` line on the
first space character (not on a general whitespace run) to extract the
username token and counts distinct tokens; on
`alice pts/0`, `bob pts/1`, `alice pts/2` the count is 2. -/
theorem active_count_splits_on_space :
    (∀ whoLines : List Line, activeUserCount whoLines =
      ((whoLines.map (fun l => l.takeWhile (fun c => !(c == ' ')))).dedup).length) ∧
    activeUserCount (["alice pts/0", "bob pts/1", "alice pts/2"].map String.toList) = 2 := by
  constructor
  · intro whoLines
    unfold activeUserCount
    have hfun : (fun l : Line => (goSplit ' ' l).headD []) =
        fun l : Line => l.takeWhile (fun c => !(c == ' ')) :=
      funext (headD_goSplit ' ')
    rw [hfun]
  · decide

/-- C9: when the news source file cannot be opened, `getNews` returns
the descriptive `unable to read news file` error and document assembly
propagates it wrapped as `could not get news`, returning an error value
instead of any document. -/
theorem news_open_failure_fatal (e : String) (users : List User) (active : Nat)
    (uptimeR : Except String String) (gAt : String) (gSec : Int) :
    getNews (.error e) = some (.error ("unable to read news file: " ++ e)) ∧
    tdp (.ok users) (.ok active) (.error ("unable to read news file: " ++ e))
        uptimeR gAt gSec =
      .error ("could not get news: " ++ ("unable to read news file: " ++ e)) :=
  ⟨rfl, rfl⟩

end Townstats
